import Mathlib

/-!
Verification of the SpecNameFormatter core of the FISMRD admin-panel toolkit.

The formatters live in the reactive "full name" script (referred to below as
the reactive script) and, in a second numeric-input variant, in the
`populateForm` routine of the laptop-form script.  The reactive script reads
every text field through `document.getElementById(...)?.value || ''`, so its
formatter inputs are plain strings (checkboxes are booleans); `populateForm`
instead receives numbers straight from a JSON payload.  Both variants are
embedded here.

JavaScript primitives are modelled on `List Char` / `Nat` / `Int`:
`String.prototype.toLowerCase` as an ASCII-range character map,
`String.prototype.trim` and `parseInt` over an explicit whitespace set, and
`Number.prototype.toFixed(1)` of the exact rational `n / 1024` as
round-half-up of `10 * n / 1024` (numbers are modelled as exact naturals; the
double-precision rounding that would kick in beyond 2^53 is not modelled).
Definitions whose names start with `spec` are transcribed from the
specification text and compared with the code-derived definitions.
-/

namespace FISMRD

/-! ### JavaScript string primitives -/

/-- Whitespace characters recognised by the embedded `trim` / `parseInt`
(the common ASCII subset of the ECMAScript WhiteSpace production). -/
def isJsWhitespace (c : Char) : Bool :=
  c == ' ' || c == '\t' || c == '\n' || c == '\r' || c == '\x0b' || c == '\x0c'

/-- Model of `String.prototype.toLowerCase` (ASCII range). -/
def jsToLower (s : String) : String :=
  String.mk (s.toList.map Char.toLower)

/-- Model of `String.prototype.trim`. -/
def jsTrim (s : String) : String :=
  String.mk (((s.toList.dropWhile isJsWhitespace).reverse.dropWhile isJsWhitespace).reverse)

/-- Case-insensitive equality, as `a.toLowerCase() === b.toLowerCase()`. -/
def ciEq (a b : String) : Bool :=
  jsToLower a == jsToLower b

/-- Tests whether `p` is an initial segment of `l`. -/
def leadsWith : List Char → List Char → Bool
  | [], _ => true
  | _ :: _, [] => false
  | p :: ps, c :: cs => p == c && leadsWith ps cs

/-- Tests whether `needle` occurs contiguously inside `hay`
(model of `String.prototype.includes`). -/
def containsChars (hay needle : List Char) : Bool :=
  match hay with
  | [] => needle.isEmpty
  | _ :: t => leadsWith needle hay || containsChars t needle

/-- Model of `hay.includes(needle)`. -/
def jsIncludes (hay needle : String) : Bool :=
  containsChars hay.toList needle.toList

/-- Model of `hay.toLowerCase().includes(needle.toLowerCase())`, the
suppression test used by the processor and GPU formatters. -/
def ciIncludes (hay needle : String) : Bool :=
  jsIncludes (jsToLower hay) (jsToLower needle)

/-- Replaces the first occurrence of `pat` in the character list by `rep`
(model of `String.prototype.replace` with a string pattern). -/
def replaceFirstAux (pat rep : List Char) : List Char → List Char
  | [] => []
  | c :: cs =>
    if leadsWith pat (c :: cs) then rep ++ (c :: cs).drop pat.length
    else c :: replaceFirstAux pat rep cs

/-- Model of `s.replace(pat, rep)` for a plain string pattern. -/
def jsReplaceFirst (s pat rep : String) : String :=
  String.mk (replaceFirstAux pat.toList rep.toList s.toList)

/-- Deletes every occurrence of `pat` (model of `s.replace(/pat/g, '')`);
fuelled so the recursion is structural.  The fuel `l.length` is enough
because every step consumes at least one character when `pat` is nonempty. -/
def stripAllAux (fuel : Nat) (pat : List Char) (l : List Char) : List Char :=
  match fuel, l with
  | 0, rest => rest
  | _, [] => []
  | f + 1, c :: cs =>
    if !pat.isEmpty && leadsWith pat (c :: cs) then stripAllAux f pat ((c :: cs).drop pat.length)
    else c :: stripAllAux f pat cs

/-- Model of `s.replace(/pat/g, '')` for the literal pattern used on panel
types. -/
def jsStripAll (s pat : String) : String :=
  String.mk (stripAllAux s.toList.length pat.toList s.toList)

/-- Model of `Array.prototype.join(' ')`. -/
def joinSpace : List String → String
  | [] => ""
  | [x] => x
  | x :: y :: ys => x ++ " " ++ joinSpace (y :: ys)

/-! ### `parseInt` and number-to-string -/

/-- Value of a hexadecimal digit character, if any. -/
def hexDigitVal (c : Char) : Option Nat :=
  if c.isDigit then some (c.toNat - 48)
  else if 'a' ≤ c ∧ c ≤ 'f' then some (c.toNat - 87)
  else if 'A' ≤ c ∧ c ≤ 'F' then some (c.toNat - 55)
  else none

/-- Digit value of `c` when it is valid in the given base. -/
def digitValB (base : Nat) (c : Char) : Option Nat :=
  match hexDigitVal c with
  | some v => if v < base then some v else none
  | none => none

/-- Accumulates the longest run of base-`base` digits. -/
def parseDigitsAux (base : Nat) (acc : Nat) : List Char → Nat
  | [] => acc
  | c :: cs =>
    match digitValB base c with
    | some v => parseDigitsAux base (base * acc + v) cs
    | none => acc

/-- Parses the longest nonempty digit run; `none` when the first character is
not a digit of the base (the `NaN` outcome of `parseInt`). -/
def parseDigits (base : Nat) : List Char → Option Nat
  | [] => none
  | c :: cs =>
    match digitValB base c with
    | some v => some (parseDigitsAux base v cs)
    | none => none

/-- Digit parsing after the optional sign: a `0x` / `0X` prefix switches to
hexadecimal, exactly as `parseInt` does with an unspecified radix. -/
def jsParseIntCore : List Char → Option Nat
  | '0' :: 'x' :: rest => parseDigits 16 rest
  | '0' :: 'X' :: rest => parseDigits 16 rest
  | l => parseDigits 10 l

/-- Model of `parseInt(s)` with radix unspecified; `none` stands for `NaN`. -/
def jsParseInt (s : String) : Option Int :=
  match s.toList.dropWhile isJsWhitespace with
  | '-' :: rest => (jsParseIntCore rest).map (fun n => -(n : Int))
  | '+' :: rest => (jsParseIntCore rest).map (fun n => (n : Int))
  | rest => (jsParseIntCore rest).map (fun n => (n : Int))

/-- Truth value of `parseInt(s) > 60` (`NaN > 60` is false). -/
def intGt60 (o : Option Int) : Bool :=
  match o with
  | some n => decide (60 < n)
  | none => false

/-- Truth value of `parseInt(s) >= 1024` (`NaN >= 1024` is false). -/
def intGe1024 (o : Option Int) : Bool :=
  match o with
  | some n => decide (1024 ≤ n)
  | none => false

/-- Decimal digits of `n`, most significant first; fuelled so the recursion
is structural (`fuel = n` always suffices). -/
def natToStrAux (fuel : Nat) (n : Nat) : List Char :=
  match fuel with
  | 0 => []
  | f + 1 => if n = 0 then [] else natToStrAux f (n / 10) ++ [Nat.digitChar (n % 10)]

/-- Model of the JavaScript number-to-string conversion for integral values
(plain decimal digits). -/
def natToStr (n : Nat) : String :=
  if n = 0 then "0" else String.mk (natToStrAux n n)

/-- Model of `(n / 1024).toFixed(1)` for a natural `n`: the exact rational
`n / 1024` rounded half-up at one decimal place. -/
def div1024Fixed1 (n : Nat) : String :=
  natToStr ((10 * n + 512) / 1024 / 10) ++ "." ++ natToStr ((10 * n + 512) / 1024 % 10)

/-! ### Token join utility (`utils.cleanJoin`) -/

/-- Body of the `forEach` loop of `cleanJoin`: trim the token, drop it when
blank, then push it unless it case-insensitively equals the previously kept
token. -/
def cleanPartsStep (acc : List String) (p : String) : List String :=
  if jsTrim p = "" then acc
  else
    match acc.getLast? with
    | none => acc ++ [jsTrim p]
    | some lastKept => if ciEq (jsTrim p) lastKept then acc else acc ++ [jsTrim p]

/-- The join utility on plain string arrays: `parts.filter(Boolean)` drops
empty strings, the loop trims and deduplicates, and the survivors are joined
with single spaces. -/
def cleanJoinStr (parts : List String) : String :=
  joinSpace (List.foldl cleanPartsStep [] (parts.filter (fun p => p ≠ "")))

/-- The join utility on arrays that may also hold `null` / `undefined`
entries (dropped by the same `filter(Boolean)`). -/
def cleanJoin (parts : List (Option String)) : String :=
  cleanJoinStr (parts.filterMap (fun o => o))

/-! ### Resolution label mapper (`utils.mapResolution`) -/

/-- Model of matching `/(\d{3,4})/` at the start of the list: succeeds when
the first three characters are digits, greedily taking a fourth digit. -/
def matchD34 : List Char → Option (List Char)
  | a :: b :: c :: d :: _ =>
    if a.isDigit && b.isDigit && c.isDigit then
      some (if d.isDigit then [a, b, c, d] else [a, b, c])
    else none
  | [a, b, c] => if a.isDigit && b.isDigit && c.isDigit then some [a, b, c] else none
  | _ => none

/-- Model of searching `/(\d{3,4})/` over the whole list: the regular
expression engine tries each start position from the left. -/
def searchD34 : List Char → Option (List Char)
  | [] => none
  | c :: cs =>
    match matchD34 (c :: cs) with
    | some m => some m
    | none => searchD34 cs

/-- Numeric value of a digit run (the `parseInt` of a captured group that is
known to consist of decimal digits). -/
def digitsVal (l : List Char) : Nat :=
  List.foldl (fun acc c => 10 * acc + (c.toNat - 48)) 0 l

/-- The bucket chain of `mapResolution`, transcribed from the `if` cascade. -/
def resBucket (h : Nat) : Option String :=
  if 1800 ≤ h ∧ h ≤ 2000 then some "FHD"
  else if 2000 < h ∧ h ≤ 2600 then some "2K"
  else if 2600 < h ∧ h ≤ 2900 then some "2.5K"
  else if 2900 < h ∧ h ≤ 3400 then some "3K"
  else if 3400 < h ∧ h ≤ 4500 then some "4K"
  else if 7000 < h ∧ h ≤ 8500 then some "8K"
  else none

/-- Model of `utils.mapResolution`: `null` for an absent or empty input,
otherwise the bucket of the first 3-4 digit match. -/
def mapResolution (res : Option String) : Option String :=
  match res with
  | none => none
  | some s =>
    if s = "" then none
    else
      match searchD34 s.toList with
      | none => none
      | some ds => resBucket (digitsVal ds)

/-! ### Reactive-script formatters (string-valued form fields)

Every text input reaches the formatter as `...?.value || ''`, i.e. a plain
string, and JavaScript truthiness on such a value is just `≠ ""`; checkboxes
arrive as booleans. -/

/-- Inputs of `reactiveLogic.updateProcessor`. -/
structure ProcessorSpec where
  family : String
  generation : String
  model : String

/-- Model of `reactiveLogic.updateProcessor`: generation, then family unless
the generation already contains it case-insensitively, then the model. -/
def formatProcessor (s : ProcessorSpec) : String :=
  cleanJoinStr
    ((if s.generation ≠ "" then [s.generation] else [])
      ++ (if s.family ≠ "" ∧ ciIncludes s.generation s.family = false then [s.family] else [])
      ++ [s.model])

/-- Inputs of `reactiveLogic.updateScreen`. -/
structure ScreenSpec where
  diagonal : String
  resolution : String
  hdType : String
  panel : String
  refresh : String
  touch : Bool

/-- The guard `refresh && parseInt(refresh) > 60` of the refresh-rate token. -/
def screenHzCond (refresh : String) : Bool :=
  if refresh = "" then false else intGt60 (jsParseInt refresh)

/-- Token list assembled by `reactiveLogic.updateScreen` before the join. -/
def screenParts (s : ScreenSpec) : List String :=
  (if s.diagonal ≠ "" then [s.diagonal ++ "\""] else [])
    ++ (match mapResolution (some s.resolution) with
        | some lbl => [lbl]
        | none => [])
    ++ (if s.hdType ≠ "" then
          match mapResolution (some s.resolution) with
          | none => [s.hdType]
          | some lbl => if ciEq s.hdType lbl then [] else [s.hdType]
        else [])
    ++ (if s.panel ≠ "" then [jsStripAll s.panel "-Level"] else [])
    ++ (if screenHzCond s.refresh then [s.refresh ++ "Hz"] else [])
    ++ (if s.touch then ["Touch"] else [])

/-- Model of `reactiveLogic.updateScreen`. -/
def formatScreen (s : ScreenSpec) : String :=
  cleanJoinStr (screenParts s)

/-- Inputs of `reactiveLogic.updateDiscreteGPU`. -/
structure DiscreteGpuSpec where
  hasDiscrete : Bool
  brand : String
  model : String
  memory : String
  memoryType : String

/-- Model of `reactiveLogic.updateDiscreteGPU`: short-circuits to the empty
string when the discrete-GPU checkbox is off. -/
def formatDiscreteGpu (s : DiscreteGpuSpec) : String :=
  if s.hasDiscrete = false then ""
  else
    cleanJoinStr
      ((if s.brand ≠ "" ∧ ciIncludes s.model s.brand = false then [s.brand] else [])
        ++ [s.model]
        ++ (if s.memory ≠ "" then [s.memory ++ "GB"] else [])
        ++ (if s.memoryType ≠ "" then [s.memoryType] else []))

/-- Inputs of `reactiveLogic.updateOnboardGPU`. -/
structure IntegratedGpuSpec where
  brand : String
  model : String
  family : String
  memory : String

/-- Model of `reactiveLogic.updateOnboardGPU`. -/
def formatIntegratedGpu (s : IntegratedGpuSpec) : String :=
  cleanJoinStr
    ((if s.brand ≠ "" ∧ ciIncludes s.model s.brand = false then [s.brand] else [])
      ++ [s.model]
      ++ (if s.family ≠ "" ∧ ciIncludes s.model s.family = false then [s.family] else [])
      ++ (if s.memory ≠ "" then [s.memory ++ "GB"] else []))

/-- Inputs of `reactiveLogic.updateStorage`. -/
structure StorageSpec where
  capacity : String
  media : String
  nvme : Bool
  formFactor : String

/-- The capacity string of `reactiveLogic.updateStorage`: `capStr` starts as
the raw field text, becomes the `.toFixed(1)`-and-strip terabyte form when
`parseInt(capacity) >= 1024`, and otherwise gets `GB` appended when the
field is nonempty. -/
def storageCapStr (capacity : String) : String :=
  if capacity ≠ "" ∧ intGe1024 (jsParseInt capacity) = true then
    jsReplaceFirst (div1024Fixed1 ((jsParseInt capacity).getD 0).toNat ++ "TB") ".0" ""
  else if capacity ≠ "" then capacity ++ "GB"
  else capacity

/-- Model of `reactiveLogic.updateStorage`. -/
def formatStorage (s : StorageSpec) : String :=
  cleanJoinStr [storageCapStr s.capacity, s.media, if s.nvme then "NVMe" else "", s.formFactor]

/-- Inputs of `reactiveLogic.updateRAM`. -/
structure RamSpec where
  capacity : String
  typeDetailed : String
  speed : String
  transfer : String

/-- Model of `reactiveLogic.updateRAM`. -/
def formatRam (s : RamSpec) : String :=
  cleanJoinStr
    ((if s.capacity ≠ "" then [s.capacity ++ "GB"] else [])
      ++ (if s.typeDetailed ≠ "" then [s.typeDetailed] else [])
      ++ (if s.speed ≠ "" then [s.speed ++ "MHz"] else [])
      ++ (if s.transfer ≠ "" then [s.transfer ++ "MT/s"] else []))

/-! ### `populateForm` storage formatter (numeric JSON fields)

In `populateForm` the storage capacity arrives as a JSON number
(`capacidad_total_gb`), so truthiness is `≠ 0`; the join there is a plain
`filter(Boolean).join(' ')` without the dedup pass. -/

/-- Inputs of the storage block of `populateForm`. -/
structure StoragePF where
  capacityGb : Nat
  media : String
  isNvme : Bool
  formFactor : String

/-- Capacity string of the `populateForm` storage block. -/
def storageCapStrPF (cap : Nat) : String :=
  if cap ≠ 0 then
    if 1024 ≤ cap then jsReplaceFirst (div1024Fixed1 cap ++ "TB") ".0" ""
    else natToStr cap ++ "GB"
  else ""

/-- Model of the storage full-name assembly of `populateForm`. -/
def formatStoragePF (s : StoragePF) : String :=
  joinSpace
    (([storageCapStrPF s.capacityGb, s.media, if s.isNvme then "NVMe" else "", s.formFactor]).filter
      (fun x => x ≠ ""))

/-! ### Specification-side description of the join utility

These definitions transcribe the specification's wording for `cleanJoin`:
drop null / empty-after-trim entries keeping the order of the rest, keep a
token only when it is not case-insensitively equal to the immediately
preceding kept token, and join with single spaces. -/

/-- Tokens surviving the specification's filtering pass: `null`, `undefined`
and empty-after-trim entries are dropped, the rest are kept (trimmed) in
order. -/
def specKeptTokens (ts : List (Option String)) : List String :=
  ts.filterMap (fun o =>
    match o with
    | none => none
    | some s => if jsTrim s = "" then none else some (jsTrim s))

/-- Adjacent case-insensitive deduplication, walking right from the
previously kept token `prev`. -/
def dedupAdjCIAux (prev : String) : List String → List String
  | [] => []
  | x :: xs => if ciEq x prev then dedupAdjCIAux prev xs else x :: dedupAdjCIAux x xs

/-- Adjacent case-insensitive deduplication of a token list. -/
def dedupAdjCI : List String → List String
  | [] => []
  | x :: xs => x :: dedupAdjCIAux x xs

/-- The join utility as the specification words it. -/
def specCleanJoin (ts : List (Option String)) : String :=
  joinSpace (dedupAdjCI (specKeptTokens ts))

/-! ### Equivalence of `cleanJoin` with its specification -/

/-- The push step of the loop once trimming and blank-dropping are factored
out. -/
def pushStep (acc : List String) (part : String) : List String :=
  match acc.getLast? with
  | none => acc ++ [part]
  | some lastKept => if ciEq part lastKept then acc else acc ++ [part]

/-- Trim-and-drop pass on a plain string list. -/
def trimKeep (l : List String) : List String :=
  l.filterMap (fun s => if jsTrim s = "" then none else some (jsTrim s))

theorem cleanPartsStep_eq (acc : List String) (p : String) :
    cleanPartsStep acc p = if jsTrim p = "" then acc else pushStep acc (jsTrim p) := rfl

theorem foldl_cleanPartsStep (l : List String) :
    ∀ acc : List String,
      List.foldl cleanPartsStep acc l = List.foldl pushStep acc (trimKeep l) := by
  induction l with
  | nil => intro acc; rfl
  | cons hd tl ih =>
    intro acc
    by_cases h : jsTrim hd = ""
    · simp [trimKeep, List.filterMap_cons, h, cleanPartsStep_eq, ih]
    · simp [trimKeep, List.filterMap_cons, h, cleanPartsStep_eq, ih]

theorem trimKeep_filter (l : List String) :
    trimKeep (l.filter (fun p => p ≠ "")) = trimKeep l := by
  induction l with
  | nil => rfl
  | cons hd tl ih =>
    by_cases h : hd = ""
    · subst h
      have hblank : jsTrim "" = "" := by decide
      simp [trimKeep, List.filter_cons, List.filterMap_cons, hblank] at ih ⊢
      exact ih
    · by_cases h2 : jsTrim hd = "" <;>
        simp [trimKeep, List.filter_cons, List.filterMap_cons, h, h2] at ih ⊢ <;> exact ih

theorem trimKeep_filterMap (ts : List (Option String)) :
    trimKeep (ts.filterMap (fun o => o)) = specKeptTokens ts := by
  induction ts with
  | nil => rfl
  | cons hd tl ih =>
    cases hd with
    | none => simp [specKeptTokens, List.filterMap_cons, trimKeep] at ih ⊢; exact ih
    | some s =>
      by_cases h : jsTrim s = "" <;>
        simp [specKeptTokens, List.filterMap_cons, trimKeep, h] at ih ⊢ <;> exact ih

theorem getLast?_app_single {α : Type} (l : List α) (x : α) :
    (l ++ [x]).getLast? = some x := by
  simp [List.getLast?_concat]

theorem foldl_pushStep_app (l : List String) :
    ∀ (pre : List String) (x : String),
      List.foldl pushStep (pre ++ [x]) l = pre ++ [x] ++ dedupAdjCIAux x l := by
  induction l with
  | nil => intro pre x; simp [dedupAdjCIAux]
  | cons y ys ih =>
    intro pre x
    by_cases h : ciEq y x = true
    · simp [List.foldl_cons, pushStep, getLast?_app_single, h, dedupAdjCIAux, ih]
    · have hb : ciEq y x = false := by
        cases hcy : ciEq y x
        · rfl
        · exact absurd hcy h
      simp only [List.foldl_cons, pushStep, getLast?_app_single, hb, Bool.false_eq_true,
        if_false]
      have step : pre ++ [x] ++ [y] = (pre ++ [x]) ++ [y] := rfl
      rw [step, ih (pre ++ [x]) y]
      simp [dedupAdjCIAux, hb]

theorem foldl_pushStep_nil (l : List String) :
    List.foldl pushStep [] l = dedupAdjCI l := by
  cases l with
  | nil => rfl
  | cons x xs =>
    have h0 : pushStep [] x = [] ++ [x] := rfl
    simp only [List.foldl_cons, h0]
    rw [foldl_pushStep_app xs [] x]
    simp [dedupAdjCI]

theorem cleanJoin_eq_spec (ts : List (Option String)) :
    cleanJoin ts = specCleanJoin ts := by
  unfold cleanJoin cleanJoinStr specCleanJoin
  rw [foldl_cleanPartsStep, trimKeep_filter, trimKeep_filterMap, foldl_pushStep_nil]

/-! ### Specification-side description of the resolution extraction

The specification describes the extraction as: find the first run of 3-4
consecutive digits anywhere in the text.  Combined with the observation
about longer runs, the intended reading is: the first maximal digit run of
length at least three, truncated to its first four digits. -/

/-- First maximal digit run of length at least three, fuelled so the
recursion is structural (`fuel = l.length` always suffices: every step
consumes at least one character). -/
def firstLongRunAux : Nat → List Char → Option (List Char)
  | 0, _ => none
  | _, [] => none
  | f + 1, c :: rest =>
    if c.isDigit then
      if 3 ≤ (c :: rest.takeWhile Char.isDigit).length then some (c :: rest.takeWhile Char.isDigit)
      else firstLongRunAux f (rest.dropWhile Char.isDigit)
    else firstLongRunAux f rest

/-- First maximal digit run of length at least three. -/
def firstLongRun (l : List Char) : Option (List Char) :=
  firstLongRunAux l.length l

/-- Extraction as the specification words it: the value of the first run of
3-4 consecutive digits (the first four digits of a longer run). -/
def specC2Extract (s : String) : Option Nat :=
  (firstLongRun s.toList).map (fun r => digitsVal (r.take 4))

/-- Bucket table transcribed from the specification's range table. -/
def specBucket (h : Nat) : Option String :=
  if 1800 ≤ h ∧ h ≤ 2000 then some "FHD"
  else if 2000 < h ∧ h ≤ 2600 then some "2K"
  else if 2600 < h ∧ h ≤ 2900 then some "2.5K"
  else if 2900 < h ∧ h ≤ 3400 then some "3K"
  else if 3400 < h ∧ h ≤ 4500 then some "4K"
  else if 7000 < h ∧ h ≤ 8500 then some "8K"
  else none

theorem resBucket_eq_specBucket (h : Nat) : resBucket h = specBucket h := rfl

theorem length_dropWhile_le_self (p : Char → Bool) (l : List Char) :
    (l.dropWhile p).length ≤ l.length := by
  induction l with
  | nil => simp
  | cons x xs ih =>
    rw [List.dropWhile_cons]
    by_cases hx : p x = true
    · simp only [hx, if_true]
      exact Nat.le_trans ih (by simp)
    · simp [hx]

theorem firstLongRunAux_fuel : ∀ (f g : Nat) (l : List Char), l.length ≤ f → l.length ≤ g →
    firstLongRunAux f l = firstLongRunAux g l := by
  intro f
  induction f with
  | zero =>
    intro g l hf _
    have : l = [] := List.eq_nil_of_length_eq_zero (Nat.le_zero.mp hf)
    subst this
    cases g <;> rfl
  | succ m ih =>
    intro g l hf hg
    cases l with
    | nil => cases g <;> rfl
    | cons c rest =>
      cases g with
      | zero => exact absurd hg (by simp)
      | succ g' =>
        simp only [firstLongRunAux]
        by_cases hc : c.isDigit
        · simp only [hc, if_true]
          by_cases hlen : 3 ≤ (c :: rest.takeWhile Char.isDigit).length
          · simp only [if_pos hlen]
          · simp only [if_neg hlen]
            have h1 : (rest.dropWhile Char.isDigit).length ≤ m := by
              have := length_dropWhile_le_self Char.isDigit rest
              have hr : rest.length ≤ m := by simpa using Nat.le_of_succ_le_succ hf
              omega
            have h2 : (rest.dropWhile Char.isDigit).length ≤ g' := by
              have := length_dropWhile_le_self Char.isDigit rest
              have hr : rest.length ≤ g' := by simpa using Nat.le_of_succ_le_succ hg
              omega
            exact ih g' _ h1 h2
        · simp only [hc, if_false]
          exact ih g' rest (by simpa using Nat.le_of_succ_le_succ hf)
            (by simpa using Nat.le_of_succ_le_succ hg)

theorem firstLongRunAux_adequate (f : Nat) (l : List Char) (h : l.length ≤ f) :
    firstLongRunAux f l = firstLongRun l :=
  firstLongRunAux_fuel f l.length l h (Nat.le_refl _)

theorem firstLongRunAux_step_long (f : Nat) (c : Char) (rest : List Char)
    (hc : c.isDigit = true) (h3 : 3 ≤ (c :: rest.takeWhile Char.isDigit).length) :
    firstLongRunAux (f + 1) (c :: rest) = some (c :: rest.takeWhile Char.isDigit) := by
  simp only [firstLongRunAux, hc, if_true]
  rw [if_pos h3]

theorem firstLongRunAux_step_short (f : Nat) (c : Char) (rest : List Char)
    (hc : c.isDigit = true) (h3 : ¬ 3 ≤ (c :: rest.takeWhile Char.isDigit).length) :
    firstLongRunAux (f + 1) (c :: rest) = firstLongRunAux f (rest.dropWhile Char.isDigit) := by
  simp only [firstLongRunAux, hc, if_true]
  rw [if_neg h3]

theorem firstLongRunAux_step_nondigit (f : Nat) (c : Char) (rest : List Char)
    (hc : c.isDigit = false) :
    firstLongRunAux (f + 1) (c :: rest) = firstLongRunAux f rest := by
  simp only [firstLongRunAux, hc, Bool.false_eq_true, if_false]

theorem firstLongRun_cons_nondigit (c : Char) (rest : List Char) (hc : c.isDigit = false) :
    firstLongRun (c :: rest) = firstLongRun rest := by
  show firstLongRunAux (rest.length + 1) (c :: rest) = firstLongRun rest
  rw [firstLongRunAux_step_nondigit rest.length c rest hc]
  rfl

theorem matchD34_nondigit1 (a : Char) (l : List Char) (ha : a.isDigit = false) :
    matchD34 (a :: l) = none := by
  rcases l with _ | ⟨b, _ | ⟨c, _ | ⟨d, t⟩⟩⟩ <;> simp [matchD34, ha]

theorem matchD34_nondigit2 (a b : Char) (l : List Char) (hb : b.isDigit = false) :
    matchD34 (a :: b :: l) = none := by
  rcases l with _ | ⟨c, _ | ⟨d, t⟩⟩ <;> simp [matchD34, hb]

theorem matchD34_nondigit3 (a b c : Char) (l : List Char) (hc : c.isDigit = false) :
    matchD34 (a :: b :: c :: l) = none := by
  rcases l with _ | ⟨d, t⟩ <;> simp [matchD34, hc]

theorem searchD34_eq_aux : ∀ (n : Nat) (l : List Char), l.length ≤ n →
    searchD34 l = (firstLongRun l).map (fun r => r.take 4) := by
  intro n
  induction n with
  | zero =>
    intro l hl
    have : l = [] := List.eq_nil_of_length_eq_zero (Nat.le_zero.mp hl)
    subst this
    rfl
  | succ m ih =>
    intro l hl
    cases l with
    | nil => rfl
    | cons c rest =>
      by_cases hc : c.isDigit = true
      · rcases rest with _ | ⟨b, rest2⟩
        · simp [searchD34, matchD34, firstLongRun, firstLongRunAux, hc]
        · by_cases hb : b.isDigit = true
          · rcases rest2 with _ | ⟨d, t⟩
            · simp [searchD34, matchD34, firstLongRun, firstLongRunAux, hc, hb,
                List.takeWhile_cons, List.dropWhile_cons]
            · by_cases hd : d.isDigit = true
              · have htw : c :: List.takeWhile Char.isDigit (b :: d :: t) =
                    c :: b :: d :: List.takeWhile Char.isDigit t := by
                  simp [List.takeWhile_cons, hb, hd]
                have h3 : 3 ≤ (c :: List.takeWhile Char.isDigit (b :: d :: t)).length := by
                  rw [htw]
                  simp only [List.length_cons]
                  omega
                have hrun : firstLongRun (c :: b :: d :: t) =
                    some (c :: b :: d :: List.takeWhile Char.isDigit t) := by
                  rw [show firstLongRun (c :: b :: d :: t) =
                      firstLongRunAux (t.length + 2 + 1) (c :: b :: d :: t) from rfl,
                    firstLongRunAux_step_long (t.length + 2) c (b :: d :: t) hc h3, htw]
                rw [hrun]
                rcases t with _ | ⟨e, t2⟩
                · simp [searchD34, matchD34, hc, hb, hd]
                · by_cases he : e.isDigit = true
                  · simp [searchD34, matchD34, hc, hb, hd, he, List.takeWhile_cons]
                  · have he2 : e.isDigit = false := by simpa using he
                    simp [searchD34, matchD34, hc, hb, hd, he2, List.takeWhile_cons]
              · have hd2 : d.isDigit = false := by simpa using hd
                have hmm1 : matchD34 (c :: b :: d :: t) = none := matchD34_nondigit3 c b d t hd2
                have hmm2 : matchD34 (b :: d :: t) = none := matchD34_nondigit2 b d t hd2
                have h3 : ¬ 3 ≤ (c :: List.takeWhile Char.isDigit (b :: d :: t)).length := by
                  simp [List.takeWhile_cons, hb, hd2]
                have hdw : List.dropWhile Char.isDigit (b :: d :: t) = d :: t := by
                  simp [List.dropWhile_cons, hb, hd2]
                have hfl : firstLongRun (c :: b :: d :: t) = firstLongRun (d :: t) := by
                  rw [show firstLongRun (c :: b :: d :: t) =
                      firstLongRunAux (t.length + 2 + 1) (c :: b :: d :: t) from rfl,
                    firstLongRunAux_step_short (t.length + 2) c (b :: d :: t) hc h3, hdw]
                  exact firstLongRunAux_adequate _ _ (by simp)
                have hlen : (d :: t).length ≤ m := by
                  simp only [List.length_cons] at hl ⊢
                  omega
                calc searchD34 (c :: b :: d :: t) = searchD34 (d :: t) := by
                      simp [searchD34, hmm1, hmm2]
                  _ = (firstLongRun (d :: t)).map (fun r => r.take 4) := ih _ hlen
                  _ = (firstLongRun (c :: b :: d :: t)).map (fun r => r.take 4) := by rw [hfl]
          · have hb2 : b.isDigit = false := by simpa using hb
            have hmm1 : matchD34 (c :: b :: rest2) = none := matchD34_nondigit2 c b rest2 hb2
            have h3 : ¬ 3 ≤ (c :: List.takeWhile Char.isDigit (b :: rest2)).length := by
              simp [List.takeWhile_cons, hb2]
            have hdw : List.dropWhile Char.isDigit (b :: rest2) = b :: rest2 := by
              simp [List.dropWhile_cons, hb2]
            have hfl : firstLongRun (c :: b :: rest2) = firstLongRun (b :: rest2) := by
              rw [show firstLongRun (c :: b :: rest2) =
                  firstLongRunAux (rest2.length + 1 + 1) (c :: b :: rest2) from rfl,
                firstLongRunAux_step_short (rest2.length + 1) c (b :: rest2) hc h3, hdw]
              rfl
            have hlen : (b :: rest2).length ≤ m := by
              simp only [List.length_cons] at hl ⊢
              omega
            calc searchD34 (c :: b :: rest2) = searchD34 (b :: rest2) := by
                  simp [searchD34, hmm1]
              _ = (firstLongRun (b :: rest2)).map (fun r => r.take 4) := ih _ hlen
              _ = (firstLongRun (c :: b :: rest2)).map (fun r => r.take 4) := by rw [hfl]
      · have hc2 : c.isDigit = false := by simpa using hc
        have hmm1 : matchD34 (c :: rest) = none := matchD34_nondigit1 c rest hc2
        have hlen : rest.length ≤ m := by
          simp only [List.length_cons] at hl
          omega
        calc searchD34 (c :: rest) = searchD34 rest := by simp [searchD34, hmm1]
          _ = (firstLongRun rest).map (fun r => r.take 4) := ih _ hlen
          _ = (firstLongRun (c :: rest)).map (fun r => r.take 4) := by
              rw [firstLongRun_cons_nondigit c rest hc2]

theorem searchD34_eq_firstLongRun (l : List Char) :
    searchD34 l = (firstLongRun l).map (fun r => r.take 4) :=
  searchD34_eq_aux l.length l (Nat.le_refl _)

theorem mapResolution_eq_spec (s : String) :
    mapResolution (some s) = Option.bind (specC2Extract s) specBucket := by
  by_cases hs : s = ""
  · subst hs
    rfl
  · have h1 : mapResolution (some s) =
        (match searchD34 s.toList with
          | none => none
          | some ds => resBucket (digitsVal ds)) := by
      simp [mapResolution, hs]
    rw [h1, searchD34_eq_firstLongRun]
    unfold specC2Extract
    cases h : firstLongRun s.toList with
    | none => rfl
    | some r => simp [resBucket_eq_specBucket]

/-! ### String bridge lemmas -/

theorem string_mk_append (xs ys : List Char) :
    String.mk xs ++ String.mk ys = String.mk (xs ++ ys) := rfl

theorem string_toList_mk (xs : List Char) : (String.mk xs).toList = xs := rfl

theorem string_eta (s : String) : String.mk s.toList = s := by
  cases s
  rfl

theorem string_toList_append (a b : String) : (a ++ b).toList = a.toList ++ b.toList := by
  cases a
  cases b
  rfl

/-! ### Decimal rendering facts used by the storage formatter -/

theorem natToStrAux_all_digits (f : Nat) :
    ∀ (n : Nat) (c : Char), c ∈ natToStrAux f n → c.isDigit = true := by
  induction f with
  | zero =>
    intro n c hc
    simp [natToStrAux] at hc
  | succ g ih =>
    intro n c hc
    by_cases hn : n = 0
    · simp [natToStrAux, hn] at hc
    · simp only [natToStrAux, hn, if_false, List.mem_append, List.mem_singleton] at hc
      rcases hc with hc | hc
      · exact ih (n / 10) c hc
      · subst hc
        have h10 : n % 10 < 10 := Nat.mod_lt _ (by norm_num)
        set k := n % 10 with hk
        interval_cases k <;> decide

theorem natToStr_all_digits (m : Nat) :
    ∀ c ∈ (natToStr m).toList, c.isDigit = true := by
  intro c hc
  unfold natToStr at hc
  by_cases hm : m = 0
  · simp only [hm, if_true, if_pos] at hc
    have : c = '0' := by simpa using hc
    subst this
    decide
  · simp only [hm, if_false, string_toList_mk] at hc
    exact natToStrAux_all_digits m m c hc

theorem natToStr_single (d : Nat) (hd : d < 10) :
    natToStr d = String.mk [Nat.digitChar d] := by
  interval_cases d <;> decide

theorem dot_beq_false_of_digit (c : Char) (hc : c.isDigit = true) : ('.' == c) = false := by
  have hne : ¬ ('.' = c) := by
    intro h
    rw [← h] at hc
    exact absurd hc (by decide)
  exact beq_eq_false_iff_ne.mpr hne

theorem digitChar_isDigit (d : Nat) (hd : d < 10) : (Nat.digitChar d).isDigit = true := by
  interval_cases d <;> decide

theorem digitChar_ne_zero_beq (d : Nat) (h1 : d < 10) (h2 : d ≠ 0) :
    ('0' == Nat.digitChar d) = false := by
  interval_cases d
  · exact absurd rfl h2
  all_goals decide

theorem replaceFirstAux_skip (pre : List Char) (hpre : ∀ c ∈ pre, c.isDigit = true)
    (l : List Char) :
    replaceFirstAux ['.', '0'] [] (pre ++ l) = pre ++ replaceFirstAux ['.', '0'] [] l := by
  induction pre with
  | nil => rfl
  | cons a pre2 ih =>
    have ha : ('.' == a) = false :=
      dot_beq_false_of_digit a (hpre a (List.mem_cons_self a pre2))
    have hlead : leadsWith ['.', '0'] (a :: (pre2 ++ l)) = false := by
      simp [leadsWith, ha]
    rw [List.cons_append, replaceFirstAux, hlead]
    rw [if_neg (by simp)]
    rw [ih (fun c hc => hpre c (List.mem_cons_of_mem a hc))]
    simp

theorem replaceFirstAux_hit (l : List Char) :
    replaceFirstAux ['.', '0'] [] ('.' :: '0' :: l) = l := by
  simp [replaceFirstAux, leadsWith]

theorem replaceFirstAux_miss (dc : Char) (h0 : ('0' == dc) = false) (hdot : ('.' == dc) = false) :
    replaceFirstAux ['.', '0'] [] ('.' :: dc :: 'T' :: 'B' :: []) =
      '.' :: dc :: 'T' :: 'B' :: [] := by
  simp [replaceFirstAux, leadsWith, h0, hdot]

/-- Capacity token for the terabyte range, as the claim words it: the
capacity divided by 1024, formatted to one decimal place, `TB` appended and
the trailing `.0` stripped. -/
def specTBToken (n : Nat) : String :=
  (if (10 * n + 512) / 1024 % 10 = 0 then natToStr ((10 * n + 512) / 1024 / 10)
   else natToStr ((10 * n + 512) / 1024 / 10) ++ "." ++ natToStr ((10 * n + 512) / 1024 % 10))
    ++ "TB"

theorem tb_strip (pre : List Char) (hpre : ∀ c ∈ pre, c.isDigit = true) (d : Nat) (hd : d < 10) :
    replaceFirstAux ['.', '0'] [] (pre ++ '.' :: Nat.digitChar d :: 'T' :: 'B' :: []) =
      if d = 0 then pre ++ 'T' :: 'B' :: []
      else pre ++ '.' :: Nat.digitChar d :: 'T' :: 'B' :: [] := by
  rw [replaceFirstAux_skip pre hpre]
  by_cases hz : d = 0
  · subst hz
    rw [if_pos rfl, show Nat.digitChar 0 = '0' from rfl, replaceFirstAux_hit]
  · rw [if_neg hz,
      replaceFirstAux_miss _ (digitChar_ne_zero_beq d hd hz)
        (dot_beq_false_of_digit _ (digitChar_isDigit d hd))]

theorem storageCapStrPF_tb (n : Nat) (hn : 1024 ≤ n) : storageCapStrPF n = specTBToken n := by
  have hn0 : n ≠ 0 := by omega
  have hd10 : (10 * n + 512) / 1024 % 10 < 10 := Nat.mod_lt _ (by norm_num)
  have hdotl : ("." : String).toList = ['.'] := rfl
  have htbl : ("TB" : String).toList = ['T', 'B'] := rfl
  have hpatl : (".0" : String).toList = ['.', '0'] := rfl
  have hrepl : ("" : String).toList = [] := rfl
  unfold storageCapStrPF
  rw [if_pos hn0, if_pos hn]
  unfold jsReplaceFirst div1024Fixed1
  rw [natToStr_single _ hd10, hpatl, hrepl]
  have hlist : ((natToStr ((10 * n + 512) / 1024 / 10) ++ "." ++
      String.mk [Nat.digitChar ((10 * n + 512) / 1024 % 10)]) ++ "TB").toList =
      (natToStr ((10 * n + 512) / 1024 / 10)).toList ++
        '.' :: Nat.digitChar ((10 * n + 512) / 1024 % 10) :: 'T' :: 'B' :: [] := by
    simp [string_toList_append, string_toList_mk, hdotl, htbl]
  rw [hlist, tb_strip _ (natToStr_all_digits _) _ hd10]
  unfold specTBToken
  by_cases hz : (10 * n + 512) / 1024 % 10 = 0
  · rw [if_pos hz, if_pos hz, ← string_eta (natToStr ((10 * n + 512) / 1024 / 10) ++ "TB"),
      string_toList_append, htbl]
  · rw [if_neg hz, if_neg hz, natToStr_single _ hd10,
      ← string_eta ((natToStr ((10 * n + 512) / 1024 / 10) ++ "." ++
        String.mk [Nat.digitChar ((10 * n + 512) / 1024 % 10)]) ++ "TB"), hlist]

theorem storageCapStrPF_gb (n : Nat) (h0 : 0 < n) (h1 : n < 1024) :
    storageCapStrPF n = natToStr n ++ "GB" := by
  unfold storageCapStrPF
  rw [if_pos (by omega : n ≠ 0), if_neg (by omega : ¬ 1024 ≤ n)]

/-! ### Remaining specification-side definitions -/

theorem containsChars_nil (l : List Char) : containsChars l [] = true := by
  induction l with
  | nil => rfl
  | cons c t ih => simp [containsChars, leadsWith, ih]

theorem ciIncludes_empty (m : String) : ciIncludes m "" = true :=
  containsChars_nil ((jsToLower m).toList)

/-- Token list of the integrated-GPU formatter as the claim words it: brand,
model, family, memory-GB in that order, with brand and family suppressed
when they occur case-insensitively inside the raw model text. -/
def c8SpecTokens (s : IntegratedGpuSpec) : List (Option String) :=
  [if ciIncludes s.model s.brand = true then none else some s.brand,
   some s.model,
   if ciIncludes s.model s.family = true then none else some s.family,
   if s.memory = "" then none else some (s.memory ++ "GB")]

/-! ### Per-field token contributions of every reactive formatter

These Option-valued token lists make the leniency policy explicit, one entry
per optional field: an absent (empty) field contributes `none` and a present
field contributes exactly its token.  Each formatter is proved equal, for
every spec, to `cleanJoin` of its list, so an absent field can never
contribute a token to any output. -/

/-- Per-field tokens of the processor formatter; the family is also `none`
when the generation already contains it case-insensitively. -/
def c7ProcessorTokens (s : ProcessorSpec) : List (Option String) :=
  [if s.generation = "" then none else some s.generation,
   if s.family = "" ∨ ciIncludes s.generation s.family = true then none else some s.family,
   if s.model = "" then none else some s.model]

/-- Per-field tokens of the screen formatter. -/
def c7ScreenTokens (s : ScreenSpec) : List (Option String) :=
  [if s.diagonal = "" then none else some (s.diagonal ++ "\""),
   mapResolution (some s.resolution),
   if s.hdType = "" then none
   else
     match mapResolution (some s.resolution) with
     | none => some s.hdType
     | some lbl => if ciEq s.hdType lbl = true then none else some s.hdType,
   if s.panel = "" then none else some (jsStripAll s.panel "-Level"),
   if screenHzCond s.refresh = true then some (s.refresh ++ "Hz") else none,
   if s.touch = true then some "Touch" else none]

/-- Per-field tokens of the discrete-GPU formatter (used when the gate flag
is on); the brand is also `none` when the model contains it. -/
def c7DiscreteTokens (s : DiscreteGpuSpec) : List (Option String) :=
  [if s.brand = "" ∨ ciIncludes s.model s.brand = true then none else some s.brand,
   if s.model = "" then none else some s.model,
   if s.memory = "" then none else some (s.memory ++ "GB"),
   if s.memoryType = "" then none else some s.memoryType]

/-- Per-field tokens of the integrated-GPU formatter. -/
def c7IntegratedTokens (s : IntegratedGpuSpec) : List (Option String) :=
  [if s.brand = "" ∨ ciIncludes s.model s.brand = true then none else some s.brand,
   if s.model = "" then none else some s.model,
   if s.family = "" ∨ ciIncludes s.model s.family = true then none else some s.family,
   if s.memory = "" then none else some (s.memory ++ "GB")]

/-- Per-field tokens of the storage formatter. -/
def c7StorageTokens (s : StorageSpec) : List (Option String) :=
  [if s.capacity = "" then none else some (storageCapStr s.capacity),
   if s.media = "" then none else some s.media,
   if s.nvme = true then some "NVMe" else none,
   if s.formFactor = "" then none else some s.formFactor]

/-- Per-field tokens of the RAM formatter. -/
def c7RamTokens (s : RamSpec) : List (Option String) :=
  [if s.capacity = "" then none else some (s.capacity ++ "GB"),
   if s.typeDetailed = "" then none else some s.typeDetailed,
   if s.speed = "" then none else some (s.speed ++ "MHz"),
   if s.transfer = "" then none else some (s.transfer ++ "MT/s")]

theorem filter_ne_idem (l : List String) :
    (l.filter (fun p => p ≠ "")).filter (fun p => p ≠ "") = l.filter (fun p => p ≠ "") := by
  induction l with
  | nil => rfl
  | cons a t ih => by_cases ha : a = "" <;> simp [List.filter_cons, ha, ih]

theorem cleanJoinStr_filter (l : List String) :
    cleanJoinStr (l.filter (fun p => p ≠ "")) = cleanJoinStr l := by
  unfold cleanJoinStr
  rw [filter_ne_idem]

theorem c7_processor_eq (s : ProcessorSpec) :
    formatProcessor s = cleanJoin (c7ProcessorTokens s) := by
  unfold formatProcessor cleanJoin c7ProcessorTokens
  rw [← cleanJoinStr_filter, ← cleanJoinStr_filter (List.filterMap (fun o => o) _)]
  congr 1
  by_cases hg : s.generation = "" <;> by_cases hf : s.family = "" <;>
    cases hci : ciIncludes s.generation s.family <;> by_cases hm : s.model = "" <;>
      simp [hg, hf, hci, hm, List.filterMap_cons, List.filter_cons]

theorem c7_screen_eq (s : ScreenSpec) :
    formatScreen s = cleanJoin (c7ScreenTokens s) := by
  unfold formatScreen screenParts cleanJoin c7ScreenTokens
  rw [← cleanJoinStr_filter, ← cleanJoinStr_filter (List.filterMap (fun o => o) _)]
  congr 1
  by_cases hdg : s.diagonal = "" <;> by_cases hht : s.hdType = "" <;>
    by_cases hpn : s.panel = "" <;> cases hhz : screenHzCond s.refresh <;>
      cases htc : s.touch <;>
        cases hmr : mapResolution (some s.resolution) with
        | none => simp [hdg, hht, hpn, hhz, htc, List.filterMap_cons, List.filter_cons]
        | some lbl =>
          cases hce : ciEq s.hdType lbl <;>
            simp [hdg, hht, hpn, hhz, htc, hce, List.filterMap_cons, List.filter_cons]

theorem c7_discrete_eq (s : DiscreteGpuSpec) (hgate : s.hasDiscrete = true) :
    formatDiscreteGpu s = cleanJoin (c7DiscreteTokens s) := by
  unfold formatDiscreteGpu cleanJoin c7DiscreteTokens
  rw [hgate, if_neg (by simp)]
  rw [← cleanJoinStr_filter, ← cleanJoinStr_filter (List.filterMap (fun o => o) _)]
  congr 1
  by_cases hb : s.brand = "" <;> cases hci : ciIncludes s.model s.brand <;>
    by_cases hm : s.model = "" <;> by_cases hmem : s.memory = "" <;>
      by_cases hmt : s.memoryType = "" <;>
        simp [hb, hci, hm, hmem, hmt, List.filterMap_cons, List.filter_cons]

theorem c7_integrated_eq (s : IntegratedGpuSpec) :
    formatIntegratedGpu s = cleanJoin (c7IntegratedTokens s) := by
  unfold formatIntegratedGpu cleanJoin c7IntegratedTokens
  rw [← cleanJoinStr_filter, ← cleanJoinStr_filter (List.filterMap (fun o => o) _)]
  congr 1
  by_cases hb : s.brand = "" <;> cases hcib : ciIncludes s.model s.brand <;>
    by_cases hf : s.family = "" <;> cases hcif : ciIncludes s.model s.family <;>
      by_cases hm : s.model = "" <;> by_cases hmem : s.memory = "" <;>
        simp [hb, hcib, hf, hcif, hm, hmem, List.filterMap_cons, List.filter_cons]

theorem c7_storage_eq (s : StorageSpec) :
    formatStorage s = cleanJoin (c7StorageTokens s) := by
  unfold formatStorage cleanJoin c7StorageTokens
  rw [← cleanJoinStr_filter, ← cleanJoinStr_filter (List.filterMap (fun o => o) _)]
  congr 1
  by_cases hc : s.capacity = "" <;> by_cases hm : s.media = "" <;> cases hn : s.nvme <;>
    by_cases hf : s.formFactor = "" <;>
      simp [hc, hm, hn, hf, show storageCapStr "" = "" from rfl,
        List.filterMap_cons, List.filter_cons]

theorem c7_ram_eq (s : RamSpec) :
    formatRam s = cleanJoin (c7RamTokens s) := by
  unfold formatRam cleanJoin c7RamTokens
  rw [← cleanJoinStr_filter, ← cleanJoinStr_filter (List.filterMap (fun o => o) _)]
  congr 1
  by_cases hc : s.capacity = "" <;> by_cases ht : s.typeDetailed = "" <;>
    by_cases hs : s.speed = "" <;> by_cases htr : s.transfer = "" <;>
      simp [hc, ht, hs, htr, List.filterMap_cons, List.filter_cons]

/-! ### Claims -/

/-- C1: for a storage spec with a numeric capacity of at least 1024 GB the
capacity token is the capacity divided by 1024 formatted to one decimal
place with `TB` appended and a trailing `.0` stripped (1024 gives "1TB",
1536 gives "1.5TB"); for a positive capacity below 1024 it is the number
followed by `GB` (512 gives "512GB"). -/
theorem C1_storage_capacity_token (n : Nat) :
    (1024 ≤ n → storageCapStrPF n = specTBToken n) ∧
    (0 < n → n < 1024 → storageCapStrPF n = natToStr n ++ "GB") ∧
    formatStoragePF { capacityGb := 1024
                      media := "SSD"
                      isNvme := true
                      formFactor := "M.2" } =
      "1TB SSD NVMe M.2" ∧
    formatStoragePF { capacityGb := 512
                      media := "SSD"
                      isNvme := false
                      formFactor := "" } =
      "512GB SSD" ∧
    storageCapStrPF 1536 = "1.5TB" := by
  refine ⟨storageCapStrPF_tb n, storageCapStrPF_gb n, by decide, by decide, by decide⟩

/-- Witness instantiating C1 at the concrete capacities 2048 and 500. -/
theorem C1_storage_capacity_token_witness :
    (1024 ≤ 2048 ∧ storageCapStrPF 2048 = specTBToken 2048) ∧
    (0 < 500 ∧ 500 < 1024 ∧ storageCapStrPF 500 = natToStr 500 ++ "GB") :=
  ⟨⟨by decide, (C1_storage_capacity_token 2048).1 (by decide)⟩,
   by decide, by decide, (C1_storage_capacity_token 500).2.1 (by decide) (by decide)⟩

/-- C2: `mapResolution` returns null for an absent or empty input or when no
3-4 digit run occurs; otherwise it extracts the first digit run (first four
digits of a longer run) and buckets the value exactly as the range table
says: 1920x1080 gives FHD, 3840x2160 gives 4K, and 5000 falls in the gap
between 4K and 8K and gives null. -/
theorem C2_mapResolution (s : String) :
    mapResolution (some s) = Option.bind (specC2Extract s) specBucket ∧
    mapResolution none = none ∧
    mapResolution (some "") = none ∧
    mapResolution (some "1920x1080") = some "FHD" ∧
    mapResolution (some "3840x2160") = some "4K" ∧
    mapResolution (some "at 5000px") = none :=
  ⟨mapResolution_eq_spec s, rfl, by decide, by decide, by decide, by decide⟩

/-- C3: `cleanJoin` drops null and blank-after-trim entries preserving order,
keeps a token only when it differs case-insensitively from the immediately
preceding kept token, joins with single spaces, and always returns a string
— the empty string on empty or all-blank input. -/
theorem C3_cleanJoin (ts : List (Option String)) :
    cleanJoin ts = specCleanJoin ts ∧
    cleanJoin [some "A", some "B", some "A"] = "A B A" ∧
    cleanJoin [some "FHD", some "FHD", some "Touch"] = "FHD Touch" ∧
    cleanJoin [] = "" ∧
    cleanJoin [none, some "", some "  "] = "" :=
  ⟨cleanJoin_eq_spec ts, by decide, by decide, rfl, by decide⟩

/-- C4: `formatScreen` includes the refresh token exactly when the refresh
field parses to a number strictly greater than 60: the token appears when
the parsed value exceeds 60, while at 60 or below the token list equals the
one with the field absent, and the 60 Hz example formats without any Hz
token. -/
theorem C4_screen_refresh (s : ScreenSpec) :
    (∀ n : Int, jsParseInt s.refresh = some n → 60 < n →
      (s.refresh ++ "Hz") ∈ screenParts s) ∧
    ((∀ n : Int, jsParseInt s.refresh = some n → n ≤ 60) →
      screenParts s = screenParts { s with refresh := "" }) ∧
    formatScreen { diagonal := "15.6"
                   resolution := "1920x1080"
                   hdType := "FHD"
                   panel := "IPS-Level"
                   refresh := "60"
                   touch := false } = "15.6\" FHD IPS" := by
  obtain ⟨dg, rs, ht, pn, rf, tc⟩ := s
  refine ⟨?_, ?_, by decide⟩
  · intro n hn h60
    have hne : rf ≠ "" := by
      intro he
      rw [he] at hn
      have hnone : jsParseInt "" = (none : Option Int) := rfl
      rw [hnone] at hn
      exact Option.noConfusion hn
    have hcond : screenHzCond rf = true := by
      unfold screenHzCond
      rw [if_neg hne]
      unfold intGt60
      rw [hn]
      simpa using h60
    simp [screenParts, hcond, List.mem_append]
  · intro hle
    have hcond : screenHzCond rf = false := by
      unfold screenHzCond
      by_cases he : rf = ""
      · rw [if_pos he]
      · rw [if_neg he]
        unfold intGt60
        cases hp : jsParseInt rf with
        | none => rfl
        | some n =>
          have := hle n hp
          simp only [decide_eq_false_iff_not]
          omega
    have hcond2 : screenHzCond ("" : String) = false := rfl
    simp [screenParts, hcond, hcond2]

/-- Witness instantiating C4: at 120 Hz the token appears, at 60 Hz the
token list is the one of the absent field. -/
theorem C4_screen_refresh_witness :
    ("120" ++ "Hz") ∈ screenParts { diagonal := ""
                                    resolution := ""
                                    hdType := ""
                                    panel := ""
                                    refresh := "120"
                                    touch := false } ∧
    screenParts { diagonal := ""
                  resolution := ""
                  hdType := ""
                  panel := ""
                  refresh := "60"
                  touch := false } =
      screenParts { diagonal := ""
                    resolution := ""
                    hdType := ""
                    panel := ""
                    refresh := ""
                    touch := false } :=
  ⟨(C4_screen_refresh _).1 120 (by decide) (by decide),
   (C4_screen_refresh _).2.1 (by
      intro n hn
      have h : jsParseInt "60" = some (60 : Int) := by decide
      rw [h] at hn
      cases hn
      decide)⟩

/-- C5: the discrete-GPU formatter is gated by the `hasDiscrete` flag: when
the flag is off the result is the empty string regardless of brand, model,
memory and memory type. -/
theorem C5_discrete_gate (brand model memory memoryType : String) :
    formatDiscreteGpu { hasDiscrete := false
                        brand := brand
                        model := model
                        memory := memory
                        memoryType := memoryType } = "" := rfl

/-- C6 counterexample: an empty model with a nonempty generation does not
give an empty result — the generation token survives, so the output is not
the empty string. -/
theorem C6_counterexample :
    formatProcessor { family := ""
                      generation := "12th Gen"
                      model := "" } ≠ "" := by
  decide

/-- C6 amended: the processor formatter returns the empty string only when
family, generation and model are all absent or empty; an empty model alone
merely drops the model token, and the generation (and family) tokens still
appear. -/
theorem C6_amended (s : ProcessorSpec) :
    (s.family = "" → s.generation = "" → s.model = "" → formatProcessor s = "") ∧
    formatProcessor { family := ""
                      generation := "12th Gen"
                      model := "" } = "12th Gen" := by
  obtain ⟨fam, gen, mdl⟩ := s
  refine ⟨?_, by decide⟩
  intro h1 h2 h3
  subst h1
  subst h2
  subst h3
  decide

/-- Witness instantiating C6 at the all-empty processor spec. -/
theorem C6_amended_witness :
    formatProcessor { family := ""
                      generation := ""
                      model := "" } = "" :=
  (C6_amended { family := ""
                generation := ""
                model := "" }).1 rfl rfl rfl

/-- C7 counterexample: a non-numeric storage capacity is not silently
dropped — the text is templated verbatim into a `GB` token. -/
theorem C7_counterexample :
    formatStorage { capacity := "abc"
                    media := ""
                    nvme := false
                    formFactor := "" } =
      "abcGB" := by
  decide

/-- C7 amended: the formatters are total, and every absent (empty) optional
input contributes no token: each formatter equals, for every spec, the
`cleanJoin` of per-field Option tokens in which an empty field is `none`; a
refresh rate that does not parse to a number likewise contributes no Hz
token; but a non-numeric storage capacity still contributes, becoming a
verbatim `GB` token such as "abcGB". -/
theorem C7_amended (s1 : ProcessorSpec) (s2 : ScreenSpec) (s3 : DiscreteGpuSpec)
    (s4 : IntegratedGpuSpec) (s5 : StorageSpec) (s6 : RamSpec) :
    formatProcessor s1 = cleanJoin (c7ProcessorTokens s1) ∧
    formatScreen s2 = cleanJoin (c7ScreenTokens s2) ∧
    (s3.hasDiscrete = true → formatDiscreteGpu s3 = cleanJoin (c7DiscreteTokens s3)) ∧
    formatIntegratedGpu s4 = cleanJoin (c7IntegratedTokens s4) ∧
    formatStorage s5 = cleanJoin (c7StorageTokens s5) ∧
    formatRam s6 = cleanJoin (c7RamTokens s6) ∧
    (jsParseInt s2.refresh = none → screenParts s2 = screenParts { s2 with refresh := "" }) ∧
    formatStorage { capacity := "abc", media := "", nvme := false, formFactor := "" } =
      "abcGB" := by
  refine ⟨c7_processor_eq s1, c7_screen_eq s2, c7_discrete_eq s3, c7_integrated_eq s4,
    c7_storage_eq s5, c7_ram_eq s6, ?_, by decide⟩
  obtain ⟨dg, rs, ht, pn, rf, tc⟩ := s2
  intro hp
  have hcond : screenHzCond rf = false := by
    unfold screenHzCond
    by_cases he : rf = ""
    · rw [if_pos he]
    · rw [if_neg he]
      unfold intGt60
      rw [hp]
  have hcond2 : screenHzCond ("" : String) = false := rfl
  simp [screenParts, hcond, hcond2]

/-- Witness instantiating C7: a gated discrete-GPU spec and the non-numeric
refresh text "abc". -/
theorem C7_amended_witness :
    formatDiscreteGpu { hasDiscrete := true
                        brand := "NVIDIA"
                        model := "RTX 4060"
                        memory := ""
                        memoryType := "" } =
      cleanJoin (c7DiscreteTokens { hasDiscrete := true
                                    brand := "NVIDIA"
                                    model := "RTX 4060"
                                    memory := ""
                                    memoryType := "" }) ∧
    screenParts { diagonal := ""
                  resolution := ""
                  hdType := ""
                  panel := ""
                  refresh := "abc"
                  touch := false } =
      screenParts { diagonal := ""
                    resolution := ""
                    hdType := ""
                    panel := ""
                    refresh := ""
                    touch := false } :=
  ⟨(C7_amended { family := "", generation := "", model := "" }
      { diagonal := "", resolution := "", hdType := "", panel := "", refresh := "", touch := false }
      { hasDiscrete := true, brand := "NVIDIA", model := "RTX 4060", memory := "", memoryType := "" }
      { brand := "", model := "", family := "", memory := "" }
      { capacity := "", media := "", nvme := false, formFactor := "" }
      { capacity := "", typeDetailed := "", speed := "", transfer := "" }).2.2.1 rfl,
   (C7_amended { family := "", generation := "", model := "" }
      { diagonal := "", resolution := "", hdType := "", panel := "", refresh := "abc", touch := false }
      { hasDiscrete := true, brand := "", model := "", memory := "", memoryType := "" }
      { brand := "", model := "", family := "", memory := "" }
      { capacity := "", media := "", nvme := false, formFactor := "" }
      { capacity := "", typeDetailed := "", speed := "", transfer := "" }).2.2.2.2.2.2.1 (by decide)⟩

/-- C8: the integrated-GPU formatter emits brand, model, family, memory-GB
in that order, suppressing brand and family exactly when they occur
case-insensitively inside the raw model text (never the reverse direction),
and passes the tokens through `cleanJoin`; a model contained in the brand
does not suppress the brand. -/
theorem C8_integrated_gpu (s : IntegratedGpuSpec) :
    formatIntegratedGpu s = cleanJoin (c8SpecTokens s) ∧
    formatIntegratedGpu { brand := "Intel Iris"
                          model := "Iris"
                          family := ""
                          memory := "" } = "Intel Iris Iris" ∧
    formatIntegratedGpu { brand := "INTEL"
                          model := "Intel Iris Xe"
                          family := ""
                          memory := "" } = "Intel Iris Xe" := by
  refine ⟨?_, by decide, by decide⟩
  obtain ⟨br, mdl, fam, mem⟩ := s
  unfold formatIntegratedGpu cleanJoin c8SpecTokens
  congr 1
  by_cases hbr : br = "" <;> by_cases hfam : fam = "" <;>
    by_cases hincb : ciIncludes mdl br = true <;>
      by_cases hincf : ciIncludes mdl fam = true <;>
        by_cases hmem : mem = "" <;>
          simp_all [ciIncludes_empty, List.filterMap_cons]

/-- C9 counterexample: in the reactive formatters a zero-valued numeric
field arrives as the string "0", which is truthy, so it does contribute
tokens: RAM capacity 0 and speed 0 format to "0GB 0MHz", not to the empty
string. -/
theorem C9_counterexample :
    formatRam { capacity := "0"
                typeDetailed := ""
                speed := "0"
                transfer := "" } =
      "0GB 0MHz" := by
  decide

/-- C9 amended: presence is tested by truthiness on the raw string field
value, so only the empty string counts as absent: "0" fields contribute
tokens ("0 inch", "0GB", "0MHz") in the reactive formatters, while the
numeric `populateForm` storage path treats the number 0 as absent. -/
theorem C9_amended :
    formatRam { capacity := "0"
                typeDetailed := ""
                speed := "0"
                transfer := "" } =
      "0GB 0MHz" ∧
    formatScreen { diagonal := "0"
                   resolution := ""
                   hdType := ""
                   panel := ""
                   refresh := ""
                   touch := false } = "0\"" ∧
    formatIntegratedGpu { brand := ""
                          model := ""
                          family := ""
                          memory := "0" } = "0GB" ∧
    formatRam { capacity := ""
                typeDetailed := ""
                speed := ""
                transfer := "" } = "" ∧
    storageCapStrPF 0 = "" :=
  ⟨by decide, by decide, by decide, by decide, rfl⟩

/-- C10: when the first digit run is longer than four digits the mapper does
not bail out for lack of a 3-4 digit run: it buckets the first four digits
of that run, so text containing 18000 maps through 1800 to FHD and text
containing 10000 maps through 1000 to null. -/
theorem C10_long_runs (s : String) (run : List Char)
    (h : firstLongRun s.toList = some run) (h4 : 4 < run.length) :
    mapResolution (some s) = specBucket (digitsVal (run.take 4)) ∧
    mapResolution (some "18000") = some "FHD" ∧
    mapResolution (some "10000") = none := by
  refine ⟨?_, by decide, by decide⟩
  rw [mapResolution_eq_spec]
  unfold specC2Extract
  rw [h]
  rfl

/-- Witness instantiating C10 on text whose first digit run has five
digits. -/
theorem C10_long_runs_witness :
    firstLongRun ("x18000y".toList) = some ['1', '8', '0', '0', '0'] ∧
    4 < (['1', '8', '0', '0', '0'] : List Char).length ∧
    mapResolution (some "x18000y") =
      specBucket (digitsVal ((['1', '8', '0', '0', '0'] : List Char).take 4)) :=
  ⟨by decide, by decide, (C10_long_runs "x18000y" _ (by decide) (by decide)).1⟩

end FISMRD
